import Mathlib

/-!
Module `lib_gpio`: setting the function-select field of a GPIO pin to "output".

Shallow embedding of `src/spiflash/lib_gpio.c` (`setup_gpio`, `gpio_reset`).

* The process state is explicit: the words of the address space around the
  mapping, the open descriptors, the established mappings and the list of
  calls and memory accesses issued so far.
* The results of the two system calls that can fail (`open`, `mmap`) are
  inputs of the model (`Env`).
* `uint32_t` values are naturals below `2 ^ 32`; C `int` values are integers.
  An `int` is converted to `uint32_t` by reduction modulo `2 ^ 32`.
* An execution either returns or reaches an operation whose behaviour C does
  not define (`Outcome`). Two operations of `setup_gpio` can be undefined: a
  shift (negative count, count of 32 or more, unrepresentable result) and an
  access `gpfsel[reg_idx]` outside the `GPIO_LEN` bytes that were mapped. The
  source has no check in front of either; the model stops there and keeps the
  state reached so far.
-/

namespace LibGpio

/-! ## Constants of the source -/

/-- Mapping size in bytes: `#define GPIO_LEN 4096`. -/
def GPIO_LEN : Nat := 4096

/-- Byte offset of the GPIO Function Select 0 register:
`#define GPIO_REGS_GPFSEL0 0x00`. -/
def GPIO_REGS_GPFSEL0 : Nat := 0x00

/-! ## C arithmetic -/

/-- Conversion of an `int` to `uint32_t`: reduction modulo `2 ^ 32`. -/
def to_uint32 (x : Int) : Nat := (x % 2 ^ 32).toNat

/-- C `a << s` on `int`: defined when `a` is non-negative, `0 ≤ s < 32` and
`a * 2 ^ s` is representable in a 32-bit `int`; `none` otherwise. -/
def int_shl (a s : Int) : Option Int :=
  if 0 ≤ a ∧ 0 ≤ s ∧ s < 32 ∧ a * 2 ^ s.toNat < 2 ^ 31 then
    some (a * 2 ^ s.toNat)
  else
    none

/-- C `~a` on a two's complement `int`. -/
def int_not (a : Int) : Int := -a - 1

/-! ## Process state and system calls -/

/-- Calls and memory accesses issued by the code, in program order. -/
inductive Event where
  | sys_open (ret : Int)
  | perror (msg : String)
  | sys_mmap (len : Nat) (ok : Bool)
  | load (idx : Int)
  | store (idx : Int) (val : Nat)
  | sys_munmap (len : Nat)
  | sys_close (fd : Int)
  deriving DecidableEq

/-- Results of the system calls that may fail. -/
structure Env where
  /-- Value returned by `open`: a descriptor, or a negative number on failure. -/
  open_ret : Int
  /-- Whether `mmap` returns a mapping (`true`) or `MAP_FAILED` (`false`). -/
  mmap_ok : Bool

/-- State of the process as far as `setup_gpio` can observe or change it. -/
structure Sys where
  /-- 32-bit words of the address space, indexed in words relative to the
  address returned by `mmap`; indices `0 ≤ i < GPIO_LEN / 4` are the mapped
  register block, the only words the model ever reads or writes. -/
  mem : Int → Nat
  /-- Descriptors opened and not yet closed. -/
  fds : List Int
  /-- Lengths of the mappings established and not yet unmapped. -/
  maps : List Nat
  /-- Calls and accesses issued so far, oldest first. -/
  trace : List Event

/-- How an execution ends: the call returns a value in a state, or it reaches
an operation whose behaviour is undefined, in the state reached just before
that operation. -/
inductive Outcome (α : Type) where
  | returned (val : α) (s : Sys)
  | undefined (s : Sys)

/-- The value with which the call returns, when it returns. -/
def Outcome.value {α : Type} : Outcome α → Option α
  | Outcome.returned val _ => some val
  | Outcome.undefined _ => none

/-- System call `open("/dev/gpiomem", O_RDWR | O_SYNC)` returning `ret`. -/
def sys_open (ret : Int) (s : Sys) : Sys :=
  { s with
    fds := if ret < 0 then s.fds else ret :: s.fds
    trace := s.trace ++ [Event.sys_open ret] }

/-- Library call `perror(msg)`: a diagnostic line, no other effect. -/
def perror (msg : String) (s : Sys) : Sys :=
  { s with trace := s.trace ++ [Event.perror msg] }

/-- System call `mmap(NULL, len, PROT_READ | PROT_WRITE, MAP_SHARED, fd, base)`. -/
def sys_mmap (len : Nat) (ok : Bool) (s : Sys) : Sys :=
  { s with
    maps := if ok then len :: s.maps else s.maps
    trace := s.trace ++ [Event.sys_mmap len ok] }

/-- System call `munmap(gpio_map, len)`. -/
def sys_munmap (len : Nat) (s : Sys) : Sys :=
  { s with
    maps := s.maps.erase len
    trace := s.trace ++ [Event.sys_munmap len] }

/-- System call `close(fd)`. -/
def sys_close (fd : Int) (s : Sys) : Sys :=
  { s with
    fds := s.fds.erase fd
    trace := s.trace ++ [Event.sys_close fd] }

/-- Whether the four bytes of `gpfsel[idx]`, at byte offset
`GPIO_REGS_GPFSEL0 + 4 * idx` from `gpio_map`, lie inside the `GPIO_LEN` bytes
of the mapping. -/
def in_mapping (idx : Int) : Bool :=
  decide (0 ≤ (GPIO_REGS_GPFSEL0 : Int) + 4 * idx ∧
    (GPIO_REGS_GPFSEL0 : Int) + 4 * idx + 4 ≤ (GPIO_LEN : Int))

/-- Read of the `uint32_t` at `gpfsel[idx]`, where
`gpfsel = (uint32_t *)(gpio_map + GPIO_REGS_GPFSEL0)`: the word read and the
state after the read; `none` when the access is outside the mapping. -/
def load (idx : Int) (s : Sys) : Option (Nat × Sys) :=
  if in_mapping idx then
    some (s.mem ((GPIO_REGS_GPFSEL0 / 4 : Nat) + idx) % 2 ^ 32,
      { s with trace := s.trace ++ [Event.load idx] })
  else
    none

/-- Write of the `uint32_t` `val` to `gpfsel[idx]`; `none` when the access is
outside the mapping. -/
def store (idx : Int) (val : Nat) (s : Sys) : Option Sys :=
  if in_mapping idx then
    some { s with
      mem := fun i => if i = (GPIO_REGS_GPFSEL0 / 4 : Nat) + idx then val else s.mem i
      trace := s.trace ++ [Event.store idx val] }
  else
    none

/-! ## The functions of `lib_gpio.c` -/

/-- Line 33: `int reg_idx = gpio_pin / 10;` (C division truncates). -/
def reg_idx (gpio_pin : Int) : Int := Int.tdiv gpio_pin 10

/-- Line 34: `int shift = (gpio_pin % 10) * 3;` (C remainder has the sign of
the dividend). -/
def shift (gpio_pin : Int) : Int := Int.tmod gpio_pin 10 * 3

/-- The function `void setup_gpio(int gpio_pin)`, lines 15 to 44. -/
def setup_gpio (env : Env) (gpio_pin : Int) (s : Sys) : Outcome Unit :=
  let mem_fd := env.open_ret
  let s := sys_open mem_fd s
  if mem_fd < 0 then
    Outcome.returned () (perror "Failed to open /dev/gpiomem" s)
  else
    let s := sys_mmap GPIO_LEN env.mmap_ok s
    if env.mmap_ok = false then
      let s := perror "Failed to map GPIO memory" s
      Outcome.returned () (sys_close mem_fd s)
    else
      -- uint32_t reg_value = gpfsel[reg_idx];
      match load (reg_idx gpio_pin) s with
      | none => Outcome.undefined s
      | some (reg_value, s) =>
      -- reg_value &= ~(0b111 << shift);
      match int_shl 0b111 (shift gpio_pin) with
      | none => Outcome.undefined s
      | some clr =>
      let reg_value := reg_value &&& to_uint32 (int_not clr)
      -- reg_value |= (0b001 << shift);
      match int_shl 0b001 (shift gpio_pin) with
      | none => Outcome.undefined s
      | some out =>
      let reg_value := reg_value ||| to_uint32 out
      -- gpfsel[reg_idx] = reg_value;
      match store (reg_idx gpio_pin) reg_value s with
      | none => Outcome.undefined s
      | some s =>
      let s := sys_munmap GPIO_LEN s
      Outcome.returned () (sys_close mem_fd s)

/-- The function `gpio_reset(self, args)`, lines 46 to 55: `args` is the result
of `PyArg_ParseTuple(args, "i", &pin)` (`none` when parsing fails). The value
returned is `none` for `NULL` and `some n` for `Py_BuildValue("i", n)`. -/
def gpio_reset (env : Env) (args : Option Int) (s : Sys) : Outcome (Option Int) :=
  match args with
  | none => Outcome.returned none s
  | some pin =>
    match setup_gpio env pin s with
    | Outcome.undefined s => Outcome.undefined s
    | Outcome.returned _ s => Outcome.returned (some 0) s

/-- Lines 37 and 38 on `uint32_t` values, for a shift `k` that is a natural
number: the word `(old & ~(0b111 << k)) | (0b001 << k)`, the complement taken
on 32 bits. The model of `setup_gpio` does not use it; `setup_gpio_of_ok`
proves that the word it stores is this one. -/
def written (old : Nat) (k : Nat) : Nat :=
  (old &&& (0xFFFFFFFF ^^^ (0b111 <<< k))) ||| (0b001 <<< k)

/-! ## Concrete inputs -/

/-- Both system calls succeed; `open` returns descriptor 3. -/
def env_ok : Env := { open_ret := 3, mmap_ok := true }

/-- The call `open` fails with `-1`. -/
def env_open_fails : Env := { open_ret := -1, mmap_ok := true }

/-- The call `open` succeeds and `mmap` returns `MAP_FAILED`. -/
def env_mmap_fails : Env := { open_ret := 3, mmap_ok := false }

/-- A state with every word equal to `w`, no descriptor, no mapping. -/
def sys_const (w : Nat) : Sys := { mem := fun _ => w, fds := [], maps := [], trace := [] }

/-- A state whose words differ: `0xFFFFFFFF` at index 1, `0x12345678` at
index 0, `0x0BADF00D` elsewhere; no descriptor, no mapping. -/
def sys_mixed : Sys :=
  { mem := fun i => if i = 1 then 0xFFFFFFFF else if i = 0 then 0x12345678 else 0x0BADF00D
    fds := []
    maps := []
    trace := [] }

/-! ## Auxiliary facts -/

/-- For a non-negative pin C's truncating division is ordinary division. -/
theorem reg_idx_of_nonneg {gpio_pin : Int} (h : 0 ≤ gpio_pin) :
    reg_idx gpio_pin = gpio_pin / 10 :=
  Int.tdiv_eq_ediv h (by decide)

/-- For a non-negative pin C's remainder is the ordinary remainder. -/
theorem shift_of_nonneg {gpio_pin : Int} (h : 0 ≤ gpio_pin) :
    shift gpio_pin = gpio_pin % 10 * 3 := by
  unfold shift
  rw [Int.tmod_eq_emod h (by decide)]

/-- The shift of a non-negative pin is one of `0, 3, ..., 27`. -/
theorem shift_range {gpio_pin : Int} (h : 0 ≤ gpio_pin) :
    0 ≤ shift gpio_pin ∧ shift gpio_pin ≤ 27 := by
  rw [shift_of_nonneg h]
  omega

/-- The two shifts and the two conversions of lines 37 and 38, for each of the
ten shifts a non-negative pin can have. -/
theorem c_ops_of_digit (r : Int) (h0 : 0 ≤ r) (h1 : r < 10) :
    int_shl 0b111 (r * 3) = some ((0b111 <<< (r * 3).toNat : Nat) : Int) ∧
    int_shl 0b001 (r * 3) = some ((0b001 <<< (r * 3).toNat : Nat) : Int) ∧
    to_uint32 (int_not ((0b111 <<< (r * 3).toNat : Nat) : Int)) =
      0xFFFFFFFF ^^^ (0b111 <<< (r * 3).toNat) ∧
    to_uint32 ((0b001 <<< (r * 3).toNat : Nat) : Int) = 0b001 <<< (r * 3).toNat := by
  interval_cases r <;> decide

/-- Bits of the word written back, in terms of the bits of the word read. -/
theorem testBit_field (old k i : Nat) (hk : k + 3 ≤ 32) :
    (((old % 2 ^ 32) &&& (0xFFFFFFFF ^^^ (0b111 <<< k))) ||| (0b001 <<< k)).testBit i =
      ((old.testBit i && decide (i < 32) && !(decide (k ≤ i) && decide (i < k + 3)))
        || decide (i = k)) := by
  have t32 : ∀ j, (0xFFFFFFFF : Nat).testBit j = decide (j < 32) :=
    fun j => Nat.testBit_two_pow_sub_one 32 j
  have t7 : ∀ j, (0b111 : Nat).testBit j = decide (j < 3) :=
    fun j => Nat.testBit_two_pow_sub_one 3 j
  have t1 : ∀ j, (0b001 : Nat).testBit j = decide (0 = j) :=
    fun j => @Nat.testBit_two_pow 0 j
  simp only [Nat.testBit_or, Nat.testBit_and, Nat.testBit_xor, Nat.testBit_shiftLeft,
    Nat.testBit_mod_two_pow, t32, t7, t1]
  by_cases c1 : i < 32 <;> by_cases c2 : k ≤ i <;> by_cases c3 : i < k + 3 <;>
    by_cases c4 : i = k <;> cases old.testBit i <;> simp [c1, c2, c3, c4] <;> omega

/-- The register index of a pin `0 ≤ p < 10240` lies inside the mapping. -/
theorem in_mapping_of_range {gpio_pin : Int} (h0 : 0 ≤ gpio_pin) (h1 : gpio_pin < 10240) :
    in_mapping (reg_idx gpio_pin) = true := by
  rw [reg_idx_of_nonneg h0]
  simp only [in_mapping, GPIO_REGS_GPFSEL0, GPIO_LEN, decide_eq_true_eq]
  omega

/-- The register index of a pin `p ≥ 10240` lies outside the mapping. -/
theorem in_mapping_of_large {gpio_pin : Int} (h : 10240 ≤ gpio_pin) :
    in_mapping (reg_idx gpio_pin) = false := by
  rw [reg_idx_of_nonneg (by omega)]
  simp only [in_mapping, GPIO_REGS_GPFSEL0, GPIO_LEN, decide_eq_false_iff_not]
  omega

/-- Both system calls succeed and `0 ≤ gpio_pin < 10240`: the call returns, and
the state in which it returns. -/
theorem setup_gpio_of_ok (env : Env) (gpio_pin : Int) (s : Sys)
    (hfd : 0 ≤ env.open_ret) (hmap : env.mmap_ok = true)
    (h0 : 0 ≤ gpio_pin) (h1 : gpio_pin < 10240) :
    setup_gpio env gpio_pin s = Outcome.returned ()
      { mem := fun i => if i = reg_idx gpio_pin then
            written (s.mem (reg_idx gpio_pin) % 2 ^ 32) (shift gpio_pin).toNat
          else s.mem i
        fds := s.fds
        maps := s.maps
        trace := s.trace ++
          [Event.sys_open env.open_ret, Event.sys_mmap GPIO_LEN true,
           Event.load (reg_idx gpio_pin),
           Event.store (reg_idx gpio_pin)
             (written (s.mem (reg_idx gpio_pin) % 2 ^ 32) (shift gpio_pin).toNat),
           Event.sys_munmap GPIO_LEN, Event.sys_close env.open_ret] } := by
  have hr0 : 0 ≤ gpio_pin % 10 := Int.emod_nonneg _ (by decide)
  have hr1 : gpio_pin % 10 < 10 := Int.emod_lt_of_pos _ (by decide)
  obtain ⟨h7, h1', hn, ho⟩ := c_ops_of_digit (gpio_pin % 10) hr0 hr1
  rw [← shift_of_nonneg h0] at h7 h1' hn ho
  have hlt : ¬ env.open_ret < 0 := not_lt.mpr hfd
  have hin := in_mapping_of_range h0 h1
  simp only [setup_gpio, hlt, hmap, h7, h1', hn, ho, hin, if_false, if_true, load, store,
    sys_open, sys_mmap, sys_munmap, sys_close, written, GPIO_REGS_GPFSEL0]
  simp

/-- Both system calls succeed and `gpio_pin ≥ 10240`: the execution reaches the
read of `gpfsel[reg_idx]`, outside the mapping, having done `open` and `mmap`
and nothing else. -/
theorem setup_gpio_of_large (env : Env) (gpio_pin : Int) (s : Sys)
    (hfd : 0 ≤ env.open_ret) (hmap : env.mmap_ok = true) (h : 10240 ≤ gpio_pin) :
    setup_gpio env gpio_pin s = Outcome.undefined
      { mem := s.mem
        fds := env.open_ret :: s.fds
        maps := GPIO_LEN :: s.maps
        trace := s.trace ++ [Event.sys_open env.open_ret, Event.sys_mmap GPIO_LEN true] } := by
  have hlt : ¬ env.open_ret < 0 := not_lt.mpr hfd
  have hin := in_mapping_of_large h
  simp only [setup_gpio, hlt, hmap, hin, if_false, load, sys_open, sys_mmap]
  simp

/-- When `open` succeeds and `mmap` fails the call returns after `perror` and
`close`. -/
theorem setup_gpio_of_mmap_fails (env : Env) (gpio_pin : Int) (s : Sys)
    (hfd : 0 ≤ env.open_ret) (hmap : env.mmap_ok = false) :
    setup_gpio env gpio_pin s = Outcome.returned ()
      { mem := s.mem
        fds := s.fds
        maps := s.maps
        trace := s.trace ++
          [Event.sys_open env.open_ret, Event.sys_mmap GPIO_LEN false,
           Event.perror "Failed to map GPIO memory", Event.sys_close env.open_ret] } := by
  have hlt : ¬ env.open_ret < 0 := not_lt.mpr hfd
  simp [setup_gpio, hlt, hmap, perror, sys_open, sys_mmap, sys_close]

/-- When `open` fails the call returns after `perror`. -/
theorem setup_gpio_of_open_fails (env : Env) (gpio_pin : Int) (s : Sys)
    (hfd : env.open_ret < 0) :
    setup_gpio env gpio_pin s = Outcome.returned ()
      { mem := s.mem
        fds := s.fds
        maps := s.maps
        trace := s.trace ++
          [Event.sys_open env.open_ret, Event.perror "Failed to open /dev/gpiomem"] } := by
  simp [setup_gpio, hfd, perror, sys_open]

/-- Whenever the call returns, the descriptors and the mappings are those of
the start. -/
theorem setup_gpio_resources (env : Env) (gpio_pin : Int) (s s' : Sys)
    (h : setup_gpio env gpio_pin s = Outcome.returned () s') :
    s'.fds = s.fds ∧ s'.maps = s.maps := by
  by_cases hfd : env.open_ret < 0
  · rw [setup_gpio_of_open_fails env gpio_pin s hfd] at h
    cases h
    exact ⟨rfl, rfl⟩
  · cases hmap : env.mmap_ok
    · rw [setup_gpio_of_mmap_fails env gpio_pin s (not_lt.mp hfd) hmap] at h
      cases h
      exact ⟨rfl, rfl⟩
    · simp only [setup_gpio, hfd, hmap, if_false, load, store] at h
      cases hin : in_mapping (reg_idx gpio_pin) with
      | false => simp [hin] at h
      | true =>
        cases h7 : int_shl 0b111 (shift gpio_pin) with
        | none => simp [hin, h7] at h
        | some clr =>
          cases h1 : int_shl 0b001 (shift gpio_pin) with
          | none => simp [hin, h7, h1] at h
          | some out =>
            simp only [hin, h7, h1] at h
            simp only [Bool.true_eq_false, if_false, if_true, Outcome.returned.injEq,
              true_and] at h
            rw [← h]
            simp [sys_close, sys_munmap, sys_mmap, sys_open, hfd]

/-- Bits of `written`. -/
theorem testBit_written (old k i : Nat) (hk : k + 3 ≤ 32) :
    (written (old % 2 ^ 32) k).testBit i =
      ((old.testBit i && decide (i < 32) && !(decide (k ≤ i) && decide (i < k + 3)))
        || decide (i = k)) :=
  testBit_field old k i hk

/-- The word written back fits in 32 bits. -/
theorem written_lt (old k : Nat) (hk : k + 3 ≤ 32) : written (old % 2 ^ 32) k < 2 ^ 32 := by
  apply Nat.lt_pow_two_of_testBit
  intro i hi
  rw [testBit_written old k i hk]
  have c1 : ¬ i < 32 := by omega
  have c2 : ¬ i = k := by omega
  simp [c1, c2]

/-- The word written differs from the word read inside the field only. -/
theorem written_xor_subset (old k : Nat) (hk : k + 3 ≤ 32) :
    ((old % 2 ^ 32) ^^^ written (old % 2 ^ 32) k) &&& (0b111 <<< k) =
      (old % 2 ^ 32) ^^^ written (old % 2 ^ 32) k := by
  have t7 : ∀ j, (0b111 : Nat).testBit j = decide (j < 3) :=
    fun j => Nat.testBit_two_pow_sub_one 3 j
  apply Nat.eq_of_testBit_eq
  intro i
  simp only [Nat.testBit_and, Nat.testBit_xor, Nat.testBit_shiftLeft, Nat.testBit_mod_two_pow,
    testBit_written old k i hk, t7]
  by_cases c1 : i < 32 <;> by_cases c2 : k ≤ i <;> by_cases c3 : i < k + 3 <;>
    by_cases c4 : i = k <;> cases old.testBit i <;> (simp [c1, c2, c3, c4]; try omega)

/-- The field of the word written reads `0b001`. -/
theorem written_field (old k : Nat) (hk : k + 3 ≤ 32) :
    (written (old % 2 ^ 32) k >>> k) &&& 0b111 = 0b001 := by
  have t7 : ∀ j, (0b111 : Nat).testBit j = decide (j < 3) :=
    fun j => Nat.testBit_two_pow_sub_one 3 j
  have t1 : ∀ j, (0b001 : Nat).testBit j = decide (0 = j) :=
    fun j => @Nat.testBit_two_pow 0 j
  apply Nat.eq_of_testBit_eq
  intro i
  simp only [Nat.testBit_and, Nat.testBit_shiftRight, testBit_written old k (k + i) hk, t7, t1]
  by_cases c1 : i < 3 <;> by_cases c4 : i = 0 <;> cases old.testBit (k + i) <;>
    simp [c1, c4] <;> omega

/-- Writing the same field twice is writing it once. -/
theorem written_idem (old k : Nat) (hk : k + 3 ≤ 32) :
    written (written (old % 2 ^ 32) k % 2 ^ 32) k = written (old % 2 ^ 32) k := by
  apply Nat.eq_of_testBit_eq
  intro i
  rw [testBit_written _ k i hk, testBit_written old k i hk]
  by_cases c1 : i < 32 <;> by_cases c2 : k ≤ i <;> by_cases c3 : i < k + 3 <;>
    by_cases c4 : i = k <;> cases old.testBit i <;> simp [c1, c2, c3, c4]

/-- Writing two fields of one word in either order gives the same word. -/
theorem written_comm (old k l : Nat) (hk : k + 3 ≤ 32) (hl : l + 3 ≤ 32)
    (hkl : k = l ∨ k + 3 ≤ l ∨ l + 3 ≤ k) :
    written (written (old % 2 ^ 32) k % 2 ^ 32) l =
      written (written (old % 2 ^ 32) l % 2 ^ 32) k := by
  apply Nat.eq_of_testBit_eq
  intro i
  rw [testBit_written _ l i hl, testBit_written old k i hk, testBit_written _ k i hk,
    testBit_written old l i hl]
  by_cases c1 : i < 32 <;> by_cases c2 : k ≤ i <;> by_cases c3 : i < k + 3 <;>
    by_cases c4 : i = k <;> by_cases c5 : l ≤ i <;> by_cases c6 : i < l + 3 <;>
    by_cases c7 : i = l <;> cases old.testBit i <;> simp [c1, c2, c3, c4, c5, c6, c7] <;> omega

/-- Writing one field leaves a disjoint field of the same word as it was. -/
theorem written_other_field (old k l : Nat) (hk : k + 3 ≤ 32) (hl : l + 3 ≤ 32)
    (hkl : k + 3 ≤ l ∨ l + 3 ≤ k) :
    (written (old % 2 ^ 32) l >>> k) &&& 0b111 = ((old % 2 ^ 32) >>> k) &&& 0b111 := by
  have t7 : ∀ j, (0b111 : Nat).testBit j = decide (j < 3) :=
    fun j => Nat.testBit_two_pow_sub_one 3 j
  apply Nat.eq_of_testBit_eq
  intro i
  simp only [Nat.testBit_and, Nat.testBit_shiftRight, testBit_written old l (k + i) hl, t7,
    Nat.testBit_mod_two_pow]
  by_cases c1 : i < 3 <;> by_cases c2 : k + i < 32 <;> by_cases c5 : l ≤ k + i <;>
    by_cases c6 : k + i < l + 3 <;> by_cases c7 : k + i = l <;> cases old.testBit (k + i) <;>
    simp [c1, c2, c5, c6, c7] <;> omega

/-- The shifted constants of lines 37 and 38 fit in a 32-bit word. -/
theorem shifted_lt_of_digit (r : Int) (h0 : 0 ≤ r) (h1 : r < 10) :
    0b111 <<< (r * 3).toNat < 2 ^ 32 ∧ 0b001 <<< (r * 3).toNat < 2 ^ 32 := by
  interval_cases r <;> decide

/-- The shift `(p % 10) * 3` leaves room for the field. -/
theorem digit_shift_le (p : Int) : (p % 10 * 3).toNat + 3 ≤ 32 := by
  omega

/-- Memory after a successful call for a pin `0 ≤ p < 10240`. -/
theorem setup_gpio_mem (env : Env) (p : Int) (s : Sys)
    (hfd : 0 ≤ env.open_ret) (hmap : env.mmap_ok = true) (h0 : 0 ≤ p) (h1 : p < 10240) :
    ∃ s', setup_gpio env p s = Outcome.returned () s' ∧
      s'.mem = fun i =>
        if i = p / 10 then written (s.mem (p / 10) % 2 ^ 32) (p % 10 * 3).toNat else s.mem i := by
  refine ⟨_, setup_gpio_of_ok env p s hfd hmap h0 h1, ?_⟩
  simp only [reg_idx_of_nonneg h0, shift_of_nonneg h0]

/-! ## C1 - C3: the field update -/

/-- C1: for every pin `0 ≤ p < 10240` and every initial memory, when `open` and
`mmap` succeed `setup_gpio p` returns; it uses word index `p / 10` and shift
`(p % 10) * 3` (the formulas `p / (32 / 3)` and `(p % (32 / 3)) * 3` for words of
32 bits and fields of 3 bits), the index lies inside the mapped region, what the
call does is `open`, `mmap`, a load at that index, a store at that index,
`munmap`, `close`, and the word stored there is
`(old AND NOT (0b111 << shift)) OR (0b001 << shift)`, where `old` is the 32-bit
word the memory held at that index before the call and NOT is the complement on
32 bits. -/
theorem setup_gpio_sets_field (env : Env) (p : Int) (s : Sys)
    (hfd : 0 ≤ env.open_ret) (hmap : env.mmap_ok = true) (h0 : 0 ≤ p) (h1 : p < 10240) :
    reg_idx p = p / (32 / 3) ∧ shift p = p % (32 / 3) * 3 ∧
    0 ≤ reg_idx p ∧ reg_idx p < (GPIO_LEN / 4 : Nat) ∧
    ∃ s', setup_gpio env p s = Outcome.returned () s' ∧
      s'.mem (p / 10) =
        ((s.mem (p / 10) % 2 ^ 32) &&& (0xFFFFFFFF ^^^ (0b111 <<< (p % 10 * 3).toNat)))
          ||| (0b001 <<< (p % 10 * 3).toNat) ∧
      s'.trace = s.trace ++
        [Event.sys_open env.open_ret, Event.sys_mmap GPIO_LEN true, Event.load (p / 10),
         Event.store (p / 10) (s'.mem (p / 10)), Event.sys_munmap GPIO_LEN,
         Event.sys_close env.open_ret] := by
  have hr := reg_idx_of_nonneg h0
  have hs := shift_of_nonneg h0
  have e : (32 / 3 : Int) = 10 := by decide
  refine ⟨by rw [e]; exact hr, by rw [e]; exact hs, by rw [hr]; omega,
    by rw [hr]; simp only [GPIO_LEN]; omega, _, setup_gpio_of_ok env p s hfd hmap h0 h1, ?_, ?_⟩
  · simp [hr, hs, written]
  · simp [hr, hs]

/-- C1, witness: pin 18 gives index 1 and shift 24; on a memory of zeros the
word at index 1 becomes `0x01000000`, and on a memory holding `0xFFFFFFFF` at
index 1 (and other values elsewhere) it becomes `0xF9FFFFFF`. -/
theorem setup_gpio_sets_field_witness :
    (0 ≤ env_ok.open_ret ∧ env_ok.mmap_ok = true ∧ (0 : Int) ≤ 18 ∧ (18 : Int) < 10240) ∧
    reg_idx 18 = 1 ∧ shift 18 = 24 ∧
    (∃ s', setup_gpio env_ok 18 (sys_const 0x00000000) = Outcome.returned () s' ∧
      s'.mem 1 = 0x01000000) ∧
    (∃ s', setup_gpio env_ok 18 sys_mixed = Outcome.returned () s' ∧
      s'.mem 1 = 0xF9FFFFFF ∧
      s'.trace = [Event.sys_open 3, Event.sys_mmap 4096 true, Event.load 1,
        Event.store 1 0xF9FFFFFF, Event.sys_munmap 4096, Event.sys_close 3]) := by
  obtain ⟨_, _, _, _, s', hs', hw, _⟩ :=
    setup_gpio_sets_field env_ok 18 (sys_const 0x00000000) (by decide) rfl (by decide)
      (by decide)
  obtain ⟨_, _, _, _, t', ht', hv, htr⟩ :=
    setup_gpio_sets_field env_ok 18 sys_mixed (by decide) rfl (by decide) (by decide)
  have e : (18 / 10 : Int) = 1 := by decide
  rw [e] at hw hv htr
  have hv' : t'.mem 1 = 0xF9FFFFFF := by rw [hv]; decide
  refine ⟨⟨by decide, rfl, by decide, by decide⟩, by decide, by decide,
    ⟨s', hs', by rw [hw]; decide⟩, t', ht', hv', ?_⟩
  rw [htr, hv']
  rfl

/-- C2 (field isolation): for every pin `0 ≤ p < 10240` and every initial
memory, when `open` and `mmap` succeed `setup_gpio p` returns, the bits in which
the word at index `p / 10` differs from the 32-bit word held there before the
call (their XOR) all lie in the mask `0b111 << shift` with
`shift = (p % 10) * 3`, and every other word is unchanged. -/
theorem setup_gpio_field_isolation (env : Env) (p : Int) (s : Sys)
    (hfd : 0 ≤ env.open_ret) (hmap : env.mmap_ok = true) (h0 : 0 ≤ p) (h1 : p < 10240) :
    (0 ≤ p / 10 ∧ p / 10 < (GPIO_LEN / 4 : Nat)) ∧
    ∃ s', setup_gpio env p s = Outcome.returned () s' ∧
      ((s.mem (p / 10) % 2 ^ 32) ^^^ s'.mem (p / 10)) &&& (0b111 <<< (p % 10 * 3).toNat) =
        (s.mem (p / 10) % 2 ^ 32) ^^^ s'.mem (p / 10) ∧
      ∀ i, i ≠ p / 10 → s'.mem i = s.mem i := by
  have hr := reg_idx_of_nonneg h0
  have hs := shift_of_nonneg h0
  refine ⟨by simp only [GPIO_LEN]; omega, _, setup_gpio_of_ok env p s hfd hmap h0 h1, ?_, ?_⟩
  · have := written_xor_subset (s.mem (p / 10)) (p % 10 * 3).toNat (digit_shift_le p)
    simpa [hr, hs] using this
  · intro i hi
    simp [hr, hi]

/-- C2, witness: pin 18 on a memory holding `0xFFFFFFFF` at index 1 and
`0x12345678` at index 0: the word at index 1 changes inside `0x07000000` only
and the word at index 0 stays `0x12345678`. -/
theorem setup_gpio_field_isolation_witness :
    (0 ≤ env_ok.open_ret ∧ env_ok.mmap_ok = true ∧ (0 : Int) ≤ 18 ∧ (18 : Int) < 10240) ∧
    ∃ s', setup_gpio env_ok 18 sys_mixed = Outcome.returned () s' ∧
      (0xFFFFFFFF ^^^ s'.mem 1) &&& 0x07000000 = 0xFFFFFFFF ^^^ s'.mem 1 ∧
      s'.mem 0 = 0x12345678 ∧ s'.mem 2 = 0x0BADF00D := by
  obtain ⟨_, s', hs', hx, hother⟩ :=
    setup_gpio_field_isolation env_ok 18 sys_mixed (by decide) rfl (by decide) (by decide)
  exact ⟨⟨by decide, rfl, by decide, by decide⟩, s', hs', hx, hother 0 (by decide),
    hother 2 (by decide)⟩

/-- C3: for every pin `0 ≤ p < 10240` and every initial memory, when `open` and
`mmap` succeed `setup_gpio p` returns and the 3-bit field at
`shift = (p % 10) * 3` of the word at index `p / 10` reads `0b001` afterwards,
whatever it held before. -/
theorem setup_gpio_field_reads_output (env : Env) (p : Int) (s : Sys)
    (hfd : 0 ≤ env.open_ret) (hmap : env.mmap_ok = true) (h0 : 0 ≤ p) (h1 : p < 10240) :
    (0 ≤ p / 10 ∧ p / 10 < (GPIO_LEN / 4 : Nat)) ∧
    ∃ s', setup_gpio env p s = Outcome.returned () s' ∧
      (s'.mem (p / 10) >>> (p % 10 * 3).toNat) &&& 0b111 = 0b001 := by
  have hr := reg_idx_of_nonneg h0
  have hs := shift_of_nonneg h0
  refine ⟨by simp only [GPIO_LEN]; omega, _, setup_gpio_of_ok env p s hfd hmap h0 h1, ?_⟩
  have := written_field (s.mem (p / 10)) (p % 10 * 3).toNat (digit_shift_le p)
  simpa [hr, hs] using this

/-- C3, witness: pin 18 on a memory whose words are all `0x07000000` (the field
of pin 18 holds `0b111`): the field reads `0b001` afterwards, and the word at
index 1 is `0x01000000`. -/
theorem setup_gpio_field_reads_output_witness :
    (0 ≤ env_ok.open_ret ∧ env_ok.mmap_ok = true ∧ (0 : Int) ≤ 18 ∧ (18 : Int) < 10240) ∧
    (∃ s', setup_gpio env_ok 18 (sys_const 0x07000000) = Outcome.returned () s' ∧
      (s'.mem 1 >>> 24) &&& 0b111 = 0b001) ∧
    (∃ s', setup_gpio env_ok 18 (sys_const 0x07000000) = Outcome.returned () s' ∧
      s'.mem 1 = 0x01000000) :=
  ⟨⟨by decide, rfl, by decide, by decide⟩,
    (setup_gpio_field_reads_output env_ok 18 (sys_const 0x07000000) (by decide) rfl (by decide)
      (by decide)).2,
    _, setup_gpio_of_ok env_ok 18 (sys_const 0x07000000) (by decide) rfl (by decide)
      (by decide), by decide⟩

/-! ## C4: no bounds check -/

/-- C4, counterexample: pin 10240 has register index 1024, the first word past
the 1024 words of the mapped region. With `open` and `mmap` succeeding the call
does not fail with an error: it prints no diagnostic and does not return; after
`open` and `mmap` it goes on to read `gpfsel[1024]`, an access outside the
mapping whose behaviour is undefined. -/
theorem setup_gpio_unchecked_at_10240 :
    reg_idx 10240 = 1024 ∧ ¬ reg_idx 10240 < (GPIO_LEN / 4 : Nat) ∧
    setup_gpio env_ok 10240 (sys_const 0) = Outcome.undefined
      { mem := (sys_const 0).mem
        fds := [3]
        maps := [4096]
        trace := [Event.sys_open 3, Event.sys_mmap 4096 true] } ∧
    (setup_gpio env_ok 10240 (sys_const 0)).value = none :=
  ⟨by decide, by decide, rfl, rfl⟩

/-- C4, amended: the mapped region has 4096 bytes, 1024 words, and `setup_gpio`
has no bounds check and no out-of-bounds error. For every pin `p ≥ 10240`, when
`open` and `mmap` succeed, the register index `p / 10` is at least 1024 and is
not checked: having done `open` and `mmap` and nothing else (no diagnostic, no
write, memory as it was, descriptor and mapping still held) the execution
reaches the read of `gpfsel[p / 10]`, which is outside the mapping, so its
behaviour is undefined and the call does not return an error. -/
theorem setup_gpio_unchecked_index (env : Env) (p : Int) (s : Sys)
    (hfd : 0 ≤ env.open_ret) (hmap : env.mmap_ok = true) (hp : 10240 ≤ p) :
    GPIO_LEN = 4096 ∧ GPIO_LEN / 4 = 1024 ∧
    reg_idx p = p / 10 ∧ ((GPIO_LEN / 4 : Nat) : Int) ≤ reg_idx p ∧
    in_mapping (reg_idx p) = false ∧
    setup_gpio env p s = Outcome.undefined
      { mem := s.mem
        fds := env.open_ret :: s.fds
        maps := GPIO_LEN :: s.maps
        trace := s.trace ++ [Event.sys_open env.open_ret, Event.sys_mmap GPIO_LEN true] } ∧
    (setup_gpio env p s).value = none := by
  have h0 : 0 ≤ p := by omega
  have hr := reg_idx_of_nonneg h0
  have hu := setup_gpio_of_large env p s hfd hmap hp
  refine ⟨rfl, rfl, hr, by rw [hr]; simp only [GPIO_LEN]; omega, in_mapping_of_large hp, hu, ?_⟩
  rw [hu]
  rfl

/-- C4, amended, witness: pin 10247, register index 1024. -/
theorem setup_gpio_unchecked_index_witness :
    (0 ≤ env_ok.open_ret ∧ env_ok.mmap_ok = true ∧ (10240 : Int) ≤ 10247) ∧
    reg_idx 10247 = 1024 ∧
    setup_gpio env_ok 10247 sys_mixed = Outcome.undefined
      { mem := sys_mixed.mem
        fds := [3]
        maps := [4096]
        trace := [Event.sys_open 3, Event.sys_mmap 4096 true] } :=
  ⟨⟨by decide, rfl, by decide⟩, by decide,
    (setup_gpio_unchecked_index env_ok 10247 sys_mixed (by decide) rfl (by decide)).2.2.2.2.2.1⟩

/-! ## C5 - C7: failure paths and resources -/

/-- C5: for every pin, when `open` returns a negative descriptor `setup_gpio`
returns having done `open` and `perror` and nothing else: no `mmap`, no load,
no store; the memory, the mappings and the descriptors are as they were. -/
theorem setup_gpio_open_fails (env : Env) (gpio_pin : Int) (s : Sys)
    (hfd : env.open_ret < 0) :
    ∃ s', setup_gpio env gpio_pin s = Outcome.returned () s' ∧
      s'.trace = s.trace ++
        [Event.sys_open env.open_ret, Event.perror "Failed to open /dev/gpiomem"] ∧
      s'.mem = s.mem ∧ s'.maps = s.maps ∧ s'.fds = s.fds := by
  refine ⟨_, by simp only [setup_gpio, hfd, if_true]; rfl, ?_, ?_, ?_, ?_⟩ <;>
    simp [perror, sys_open, hfd]

/-- C5, witness: pin 18 when `open` returns `-1`. -/
theorem setup_gpio_open_fails_witness :
    env_open_fails.open_ret < 0 ∧
    ∃ s', setup_gpio env_open_fails 18 sys_mixed = Outcome.returned () s' ∧
      s'.trace = sys_mixed.trace ++
        [Event.sys_open env_open_fails.open_ret, Event.perror "Failed to open /dev/gpiomem"] ∧
      s'.mem = sys_mixed.mem ∧ s'.maps = sys_mixed.maps ∧ s'.fds = sys_mixed.fds :=
  ⟨by decide, setup_gpio_open_fails env_open_fails 18 sys_mixed (by decide)⟩

/-- C6, counterexample: `gpio_reset` delivers the status 0 for pin 18 when the
operation succeeds, when `open` fails and when `mmap` fails alike. -/
theorem gpio_reset_zero_on_failure :
    (gpio_reset env_ok (some 18) (sys_const 0)).value = some (some 0) ∧
    (gpio_reset env_open_fails (some 18) (sys_const 0)).value = some (some 0) ∧
    (gpio_reset env_mmap_fails (some 18) (sys_const 0)).value = some (some 0) := by
  decide

/-- C6, amended: for every pin, when `open` fails and when `mmap` fails
`gpio_reset` returns, and the status it delivers is 0, the status it delivers
for a pin `0 ≤ pin < 10240` when the operation succeeds. The failure shows only
as a `perror` diagnostic. -/
theorem gpio_reset_status (env : Env) (pin : Int) (s : Sys) :
    (env.open_ret < 0 →
      ∃ s', gpio_reset env (some pin) s = Outcome.returned (some 0) s' ∧
        s'.trace = s.trace ++
          [Event.sys_open env.open_ret, Event.perror "Failed to open /dev/gpiomem"]) ∧
    (0 ≤ env.open_ret → env.mmap_ok = false →
      ∃ s', gpio_reset env (some pin) s = Outcome.returned (some 0) s' ∧
        s'.trace = s.trace ++
          [Event.sys_open env.open_ret, Event.sys_mmap GPIO_LEN false,
           Event.perror "Failed to map GPIO memory", Event.sys_close env.open_ret]) ∧
    (0 ≤ env.open_ret → env.mmap_ok = true → 0 ≤ pin → pin < 10240 →
      ∃ s', gpio_reset env (some pin) s = Outcome.returned (some 0) s' ∧
        setup_gpio env pin s = Outcome.returned () s') := by
  refine ⟨?_, ?_, ?_⟩
  · intro hfd
    exact ⟨_, by simp only [gpio_reset, setup_gpio_of_open_fails env pin s hfd]; rfl, rfl⟩
  · intro hfd hmap
    exact ⟨_, by simp only [gpio_reset, setup_gpio_of_mmap_fails env pin s hfd hmap]; rfl, rfl⟩
  · intro hfd hmap h0 h1
    exact ⟨_, by simp only [gpio_reset, setup_gpio_of_ok env pin s hfd hmap h0 h1],
      setup_gpio_of_ok env pin s hfd hmap h0 h1⟩

/-- C6, amended, witness: pin 18 when `open` returns `-1`, when `mmap` fails and
when both succeed. -/
theorem gpio_reset_status_witness :
    (env_open_fails.open_ret < 0 ∧
      ∃ s', gpio_reset env_open_fails (some 18) sys_mixed = Outcome.returned (some 0) s' ∧
        s'.trace = sys_mixed.trace ++
          [Event.sys_open env_open_fails.open_ret,
           Event.perror "Failed to open /dev/gpiomem"]) ∧
    ((0 ≤ env_mmap_fails.open_ret ∧ env_mmap_fails.mmap_ok = false) ∧
      ∃ s', gpio_reset env_mmap_fails (some 18) sys_mixed = Outcome.returned (some 0) s' ∧
        s'.trace = sys_mixed.trace ++
          [Event.sys_open env_mmap_fails.open_ret, Event.sys_mmap GPIO_LEN false,
           Event.perror "Failed to map GPIO memory",
           Event.sys_close env_mmap_fails.open_ret]) ∧
    ((0 ≤ env_ok.open_ret ∧ env_ok.mmap_ok = true ∧ (0 : Int) ≤ 18 ∧ (18 : Int) < 10240) ∧
      ∃ s', gpio_reset env_ok (some 18) sys_mixed = Outcome.returned (some 0) s' ∧
        setup_gpio env_ok 18 sys_mixed = Outcome.returned () s') :=
  ⟨⟨by decide, (gpio_reset_status env_open_fails 18 sys_mixed).1 (by decide)⟩,
    ⟨⟨by decide, rfl⟩, (gpio_reset_status env_mmap_fails 18 sys_mixed).2.1 (by decide) rfl⟩,
    ⟨⟨by decide, rfl, by decide, by decide⟩,
      (gpio_reset_status env_ok 18 sys_mixed).2.2 (by decide) rfl (by decide) (by decide)⟩⟩

/-- C7: for every pin and every outcome of `open` and `mmap`, when `setup_gpio`
returns the open descriptors and the established mappings are those of the
start: what it opened it closed, what it mapped it unmapped. It does return
when `open` fails, when `mmap` fails, and when both succeed for a pin
`0 ≤ gpio_pin < 10240`. When `open` succeeds and `mmap` fails, the call closes
the descriptor before returning; when both succeed it ends with `munmap` and
`close`. -/
theorem setup_gpio_releases (env : Env) (gpio_pin : Int) (s : Sys) :
    (∀ s', setup_gpio env gpio_pin s = Outcome.returned () s' →
      s'.fds = s.fds ∧ s'.maps = s.maps) ∧
    ((env.open_ret < 0 ∨ env.mmap_ok = false ∨ (0 ≤ gpio_pin ∧ gpio_pin < 10240)) →
      ∃ s', setup_gpio env gpio_pin s = Outcome.returned () s') ∧
    (0 ≤ env.open_ret → env.mmap_ok = false →
      ∃ s', setup_gpio env gpio_pin s = Outcome.returned () s' ∧
        s'.trace = s.trace ++
          [Event.sys_open env.open_ret, Event.sys_mmap GPIO_LEN false,
           Event.perror "Failed to map GPIO memory", Event.sys_close env.open_ret]) ∧
    (0 ≤ env.open_ret → env.mmap_ok = true → 0 ≤ gpio_pin → gpio_pin < 10240 →
      ∃ s' v, setup_gpio env gpio_pin s = Outcome.returned () s' ∧
        s'.trace = s.trace ++
          [Event.sys_open env.open_ret, Event.sys_mmap GPIO_LEN true,
           Event.load (reg_idx gpio_pin), Event.store (reg_idx gpio_pin) v,
           Event.sys_munmap GPIO_LEN, Event.sys_close env.open_ret]) := by
  refine ⟨fun s' h => setup_gpio_resources env gpio_pin s s' h, ?_, ?_, ?_⟩
  · intro h
    by_cases hfd : env.open_ret < 0
    · exact ⟨_, setup_gpio_of_open_fails env gpio_pin s hfd⟩
    · cases hmap : env.mmap_ok
      · exact ⟨_, setup_gpio_of_mmap_fails env gpio_pin s (not_lt.mp hfd) hmap⟩
      · have h0 : 0 ≤ gpio_pin ∧ gpio_pin < 10240 := by
          rcases h with h | h | h
          · exact absurd h hfd
          · rw [hmap] at h; cases h
          · exact h
        exact ⟨_, setup_gpio_of_ok env gpio_pin s (not_lt.mp hfd) hmap h0.1 h0.2⟩
  · intro hfd hmap
    exact ⟨_, setup_gpio_of_mmap_fails env gpio_pin s hfd hmap, rfl⟩
  · intro hfd hmap h0 h1
    exact ⟨_, _, setup_gpio_of_ok env gpio_pin s hfd hmap h0 h1, rfl⟩

/-- C7, witness: pin 18 from a state in which descriptor 0 is open and a mapping
of 8192 bytes exists. When `open` returns descriptor 3 and `mmap` fails, the
call is `open`, `mmap`, `perror`, `close(3)`; when both succeed it returns; in
both cases descriptor 0 and the mapping of 8192 bytes are what remains. -/
theorem setup_gpio_releases_witness :
    ((0 ≤ env_mmap_fails.open_ret ∧ env_mmap_fails.mmap_ok = false) ∧
      ∃ s', setup_gpio env_mmap_fails 18 { sys_mixed with fds := [0], maps := [8192] } =
          Outcome.returned () s' ∧
        s'.trace =
          [Event.sys_open 3, Event.sys_mmap GPIO_LEN false,
           Event.perror "Failed to map GPIO memory", Event.sys_close 3] ∧
        s'.fds = [0] ∧ s'.maps = [8192]) ∧
    ((env_ok.open_ret < 0 ∨ env_ok.mmap_ok = false ∨ ((0 : Int) ≤ 18 ∧ (18 : Int) < 10240)) ∧
      ∃ s', setup_gpio env_ok 18 { sys_mixed with fds := [0], maps := [8192] } =
          Outcome.returned () s' ∧
        s'.fds = [0] ∧ s'.maps = [8192]) := by
  have a := setup_gpio_releases env_mmap_fails 18 { sys_mixed with fds := [0], maps := [8192] }
  have b := setup_gpio_releases env_ok 18 { sys_mixed with fds := [0], maps := [8192] }
  obtain ⟨s', hs', htr⟩ := a.2.2.1 (by decide) rfl
  obtain ⟨t', ht'⟩ := b.2.1 (Or.inr (Or.inr ⟨by decide, by decide⟩))
  exact ⟨⟨⟨by decide, rfl⟩, s', hs', htr, a.1 s' hs'⟩,
    ⟨Or.inr (Or.inr ⟨by decide, by decide⟩), t', ht', b.1 t' ht'⟩⟩

/-! ## C8: the shift -/

/-- C8, counterexample: for pin `-1` the remainder is `-1` and the shift is `-3`,
which is negative; the shift `0b111 << -3` has no defined value, and the
execution of `setup_gpio` reaches it after the read of `gpfsel[0]`. -/
theorem shift_negative_at_minus_one :
    shift (-1) = -3 ∧ ¬ (0 ≤ shift (-1) ∧ shift (-1) + 3 ≤ 32) ∧
    int_shl 0b111 (shift (-1)) = none ∧
    (setup_gpio env_ok (-1) (sys_const 0)).value = none ∧
    setup_gpio env_ok (-1) (sys_const 0) = Outcome.undefined
      { mem := (sys_const 0).mem
        fds := [3]
        maps := [4096]
        trace := [Event.sys_open 3, Event.sys_mmap 4096 true, Event.load 0] } :=
  ⟨by decide, by decide, by decide, by decide, rfl⟩

/-- C8, amended: for every non-negative pin the shift `(gpio_pin % 10) * 3`
satisfies `0 ≤ shift` and `shift + 3 ≤ 32`, and the two shifts `0b111 << shift`
and `0b001 << shift` are defined and stay inside the 32-bit word. -/
theorem shift_in_word (gpio_pin : Int) (h : 0 ≤ gpio_pin) :
    0 ≤ shift gpio_pin ∧ shift gpio_pin + 3 ≤ 32 ∧
    int_shl 0b111 (shift gpio_pin) = some ((0b111 <<< (shift gpio_pin).toNat : Nat) : Int) ∧
    int_shl 0b001 (shift gpio_pin) = some ((0b001 <<< (shift gpio_pin).toNat : Nat) : Int) ∧
    0b111 <<< (shift gpio_pin).toNat < 2 ^ 32 ∧ 0b001 <<< (shift gpio_pin).toNat < 2 ^ 32 := by
  have hr0 : 0 ≤ gpio_pin % 10 := Int.emod_nonneg _ (by decide)
  have hr1 : gpio_pin % 10 < 10 := Int.emod_lt_of_pos _ (by decide)
  obtain ⟨h7, h1, _, _⟩ := c_ops_of_digit (gpio_pin % 10) hr0 hr1
  obtain ⟨l7, l1⟩ := shifted_lt_of_digit (gpio_pin % 10) hr0 hr1
  rw [← shift_of_nonneg h] at h7 h1 l7 l1
  have hs := shift_range h
  exact ⟨hs.1, by omega, h7, h1, l7, l1⟩

/-- C8, amended, witness: pin 19, the largest shift, 27. -/
theorem shift_in_word_witness :
    (0 : Int) ≤ 19 ∧ shift 19 = 27 ∧
    (0 ≤ shift 19 ∧ shift 19 + 3 ≤ 32 ∧
    int_shl 0b111 (shift 19) = some ((0b111 <<< (shift 19).toNat : Nat) : Int) ∧
    int_shl 0b001 (shift 19) = some ((0b001 <<< (shift 19).toNat : Nat) : Int) ∧
    0b111 <<< (shift 19).toNat < 2 ^ 32 ∧ 0b001 <<< (shift 19).toNat < 2 ^ 32) :=
  ⟨by decide, by decide, shift_in_word 19 (by decide)⟩

/-! ## C9, C10: algebra of the update -/

/-- C9: for every pin `0 ≤ p < 10240` and every initial memory, two calls of
`setup_gpio p` in succession, both with `open` and `mmap` succeeding, both
return, and the memory after the second is the memory after the first. -/
theorem setup_gpio_idempotent (env env' : Env) (p : Int) (s : Sys)
    (hfd : 0 ≤ env.open_ret) (hmap : env.mmap_ok = true)
    (hfd' : 0 ≤ env'.open_ret) (hmap' : env'.mmap_ok = true)
    (h0 : 0 ≤ p) (h1 : p < 10240) :
    (0 ≤ p / 10 ∧ p / 10 < (GPIO_LEN / 4 : Nat)) ∧
    ∃ s1 s2, setup_gpio env p s = Outcome.returned () s1 ∧
      setup_gpio env' p s1 = Outcome.returned () s2 ∧
      s2.mem = s1.mem := by
  obtain ⟨s1, e1, m1⟩ := setup_gpio_mem env p s hfd hmap h0 h1
  obtain ⟨s2, e2, m2⟩ := setup_gpio_mem env' p s1 hfd' hmap' h0 h1
  refine ⟨by simp only [GPIO_LEN]; omega, s1, s2, e1, e2, ?_⟩
  rw [m2, m1]
  funext i
  by_cases hi : i = p / 10
  · simp only [hi, if_true]
    exact written_idem _ _ (digit_shift_le p)
  · simp only [hi, if_false]

/-- C9, witness: pin 18 twice on a memory holding `0xFFFFFFFF` at index 1. -/
theorem setup_gpio_idempotent_witness :
    (0 ≤ env_ok.open_ret ∧ env_ok.mmap_ok = true ∧ (0 : Int) ≤ 18 ∧ (18 : Int) < 10240) ∧
    ∃ s1 s2, setup_gpio env_ok 18 sys_mixed = Outcome.returned () s1 ∧
      setup_gpio env_ok 18 s1 = Outcome.returned () s2 ∧ s2.mem = s1.mem :=
  ⟨⟨by decide, rfl, by decide, by decide⟩,
    (setup_gpio_idempotent env_ok env_ok 18 sys_mixed (by decide) rfl (by decide)
      rfl (by decide) (by decide)).2⟩

/-- C10: for all pins `0 ≤ p, q < 10240` and every initial memory, with `open`
and `mmap` succeeding in every call, `setup_gpio p` followed by `setup_gpio q`
and `setup_gpio q` followed by `setup_gpio p` all return and leave the same
memory; and when `p ≠ q` the call for `q` leaves the 3-bit field of pin `p`
(word `p / 10`, shift `(p % 10) * 3`) as it was. -/
theorem setup_gpio_commute (env : Env) (p q : Int) (s : Sys)
    (hfd : 0 ≤ env.open_ret) (hmap : env.mmap_ok = true)
    (hp0 : 0 ≤ p) (hp1 : p < 10240) (hq0 : 0 ≤ q) (hq1 : q < 10240) :
    (0 ≤ p / 10 ∧ p / 10 < (GPIO_LEN / 4 : Nat) ∧
      0 ≤ q / 10 ∧ q / 10 < (GPIO_LEN / 4 : Nat)) ∧
    ∃ sp spq sq sqp,
      setup_gpio env p s = Outcome.returned () sp ∧
      setup_gpio env q sp = Outcome.returned () spq ∧
      setup_gpio env q s = Outcome.returned () sq ∧
      setup_gpio env p sq = Outcome.returned () sqp ∧
      spq.mem = sqp.mem ∧
      (p ≠ q →
        ((sq.mem (p / 10) % 2 ^ 32) >>> (p % 10 * 3).toNat) &&& 0b111 =
          ((s.mem (p / 10) % 2 ^ 32) >>> (p % 10 * 3).toNat) &&& 0b111) := by
  obtain ⟨sp, ep, mp⟩ := setup_gpio_mem env p s hfd hmap hp0 hp1
  obtain ⟨spq, epq, mpq⟩ := setup_gpio_mem env q sp hfd hmap hq0 hq1
  obtain ⟨sq, eq, mq⟩ := setup_gpio_mem env q s hfd hmap hq0 hq1
  obtain ⟨sqp, eqp, mqp⟩ := setup_gpio_mem env p sq hfd hmap hp0 hp1
  refine ⟨by simp only [GPIO_LEN]; omega, sp, spq, sq, sqp, ep, epq, eq, eqp, ?_, ?_⟩
  · rw [mpq, mqp, mp, mq]
    funext i
    by_cases hpq : p / 10 = q / 10
    · by_cases hi : i = q / 10
      · simp only [hi, hpq, if_true]
        apply written_comm _ _ _ (digit_shift_le p) (digit_shift_le q)
        omega
      · simp only [hi, hpq, if_false]
    · have hqp : ¬ q / 10 = p / 10 := fun h => hpq h.symm
      by_cases hi : i = q / 10
      · simp only [hi, hqp, if_true, if_false]
      · by_cases hi' : i = p / 10
        · simp only [hi', hpq, if_true, if_false]
        · simp only [hi, hi', if_false]
  · intro hne
    rw [mq]
    by_cases hpq : p / 10 = q / 10
    · simp only [hpq, if_true]
      rw [Nat.mod_eq_of_lt (written_lt _ _ (digit_shift_le q))]
      apply written_other_field _ _ _ (digit_shift_le p) (digit_shift_le q)
      omega
    · simp only [hpq, if_false]

/-- C10, witness: pins 17 and 18, two fields of the word at index 1, on a memory
holding `0xFFFFFFFF` at index 1. -/
theorem setup_gpio_commute_witness :
    (0 ≤ env_ok.open_ret ∧ env_ok.mmap_ok = true ∧ (0 : Int) ≤ 17 ∧ (17 : Int) < 10240 ∧
      (0 : Int) ≤ 18 ∧ (18 : Int) < 10240) ∧
    ∃ sp spq sq sqp,
      setup_gpio env_ok 17 sys_mixed = Outcome.returned () sp ∧
      setup_gpio env_ok 18 sp = Outcome.returned () spq ∧
      setup_gpio env_ok 18 sys_mixed = Outcome.returned () sq ∧
      setup_gpio env_ok 17 sq = Outcome.returned () sqp ∧
      spq.mem = sqp.mem ∧
      ((17 : Int) ≠ 18 →
        ((sq.mem (17 / 10) % 2 ^ 32) >>> ((17 : Int) % 10 * 3).toNat) &&& 0b111 =
          ((sys_mixed.mem (17 / 10) % 2 ^ 32) >>> ((17 : Int) % 10 * 3).toNat) &&& 0b111) :=
  ⟨⟨by decide, rfl, by decide, by decide, by decide, by decide⟩,
    (setup_gpio_commute env_ok 17 18 sys_mixed (by decide) rfl (by decide)
      (by decide) (by decide) (by decide)).2⟩

end LibGpio
